import Mathlib

/-!
# Verification of the QA Snapshot Inspector core

A shallow embedding, in Lean 4, of the parts of the
`qa_snapshot_tool` Python package that the specification's testable
claims are about:

* `src/qa_snapshot_tool/uix_parser.py` — `UiNode.parse_bounds`,
  `UixParser.parse` and its recursive `build` helper;
* `src/qa_snapshot_tool/gui.py` — `populate_tree`'s hit-test map,
  `find_node_at`, `scale_rect`;
* `src/qa_snapshot_tool/adb_manager.py` — `_run_cmd`,
  `_apply_adb_server`, `get_xml_dump`, `has_uiautomator_service`;
* `src/qa_snapshot_tool/locator_suggester.py` —
  `LocatorUtils.escape_xpath_string`, `LocatorSuggester.generate_locators`,
  `_generate_scoped_locator`;
* `src/qa_snapshot_tool/live_mirror.py` — `HierarchyThread.run`.

Pure string/tree computations are translated directly.  Process
invocation, the XML front end (`xml.etree` / file IO) and wall-clock
time are modelled by explicit "world" parameters recording the outcome
of each external call; machine floats that only ever carry exact
screen-coordinate arithmetic are modelled by `ℚ`.
-/

namespace QaSnapshot

/-! ## Bounds-string parsing (`uix_parser.UiNode.parse_bounds`)

The Python code runs `re.findall(r'\[([-]?\d+),([-]?\d+)\]', bounds_str)`.
A match of that pattern is `'['`, an optional `'-'`, one or more digits,
`','`, an optional `'-'`, one or more digits, `']'`.  Since the interior
of a match never contains `'['`, the usual non-overlapping left-to-right
`findall` scan coincides with the single-character-advance scan
implemented here (a new match can only start at a `'['`, and no `'['`
occurs strictly inside a match). -/

/-- Value of a list of decimal digit characters (most significant first). -/
def digitsVal (ds : List Char) : Nat :=
  ds.foldl (fun a c => 10 * a + (c.toNat - '0'.toNat)) 0

/-- Read a maximal nonempty run of digits from the front of `cs`
(the regex fragment `\d+` followed by a non-digit). -/
def readNat (cs : List Char) : Option (Nat × List Char) :=
  let ds := cs.takeWhile (·.isDigit)
  if ds.isEmpty then none
  else some (digitsVal ds, cs.dropWhile (·.isDigit))

/-- Read the regex fragment `-?\d+` from the front of `cs`. -/
def readInt (cs : List Char) : Option (Int × List Char) :=
  match cs with
  | '-' :: rest => (readNat rest).map (fun p => (-(p.1 : Int), p.2))
  | _ => (readNat cs).map (fun p => ((p.1 : Int), p.2))

/-- Try to complete a match of `\[(-?\d+),(-?\d+)\]` whose opening `'['`
has just been consumed. -/
def matchPair (cs : List Char) : Option (Int × Int) :=
  match readInt cs with
  | some (x, ',' :: r1) =>
    match readInt r1 with
    | some (y, ']' :: _) => some (x, y)
    | _ => none
  | _ => none

/-- All matches of `\[(-?\d+),(-?\d+)\]` in `cs`, in order: the Lean
rendering of `re.findall` for this particular pattern. -/
def scanPairs : List Char → List (Int × Int)
  | [] => []
  | c :: cs =>
    if c = '[' then
      match matchPair cs with
      | some p => p :: scanPairs cs
      | none => scanPairs cs
    else scanPairs cs

/-- `UiNode.parse_bounds` (uix_parser.py, lines 63–83): on exactly two
matches it stores `rect = (x1, y1, x2-x1, y2-y1)` and reports validity
`w > 0 and h > 0`; otherwise the rect keeps its initial `(0,0,0,0)` and
the bounds are invalid.  The Lean version returns the pair
(final `self.rect`, returned boolean). -/
def parse_bounds (s : String) : (Int × Int × Int × Int) × Bool :=
  match scanPairs s.data with
  | [(x1, y1), (x2, y2)] =>
    ((x1, y1, x2 - x1, y2 - y1), decide (0 < x2 - x1 ∧ 0 < y2 - y1))
  | _ => ((0, 0, 0, 0), false)

/-- A numeral as the regex accepts it: an optional leading `'-'`
followed by one or more digits (and nothing else). -/
def isNumeral (cs : List Char) : Bool :=
  match cs with
  | '-' :: ds => !ds.isEmpty && ds.all (·.isDigit)
  | ds => !ds.isEmpty && ds.all (·.isDigit)

/-- The integer a numeral denotes. -/
def numVal (cs : List Char) : Int :=
  match cs with
  | '-' :: ds => -(digitsVal ds : Int)
  | ds => (digitsVal ds : Int)

/-- The character list `[a,b][c,d]` for numerals `a b c d`. -/
def boundsChars (a b c d : List Char) : List Char :=
  '[' :: (a ++ (',' :: (b ++ (']' :: ('[' :: (c ++ (',' :: (d ++ [']']))))))))

lemma takeWhile_digits_append (ds : List Char) (c : Char) (rest : List Char)
    (hds : ds.all (·.isDigit) = true) (hc : c.isDigit = false) :
    (ds ++ c :: rest).takeWhile (·.isDigit) = ds := by
  induction ds with
  | nil => simp [List.takeWhile_cons, hc]
  | cons d ds ih =>
    simp only [List.all_cons, Bool.and_eq_true] at hds
    simp [List.takeWhile_cons, hds.1, ih hds.2]

lemma dropWhile_digits_append (ds : List Char) (c : Char) (rest : List Char)
    (hds : ds.all (·.isDigit) = true) (hc : c.isDigit = false) :
    (ds ++ c :: rest).dropWhile (·.isDigit) = c :: rest := by
  induction ds with
  | nil => simp [List.dropWhile_cons, hc]
  | cons d ds ih =>
    simp only [List.all_cons, Bool.and_eq_true] at hds
    simp [List.dropWhile_cons, hds.1, ih hds.2]

lemma ne_nil_of_isEmpty_eq_false {l : List Char} (h : l.isEmpty = false) :
    l ≠ [] := by
  cases l <;> simp_all

lemma readNat_digits (ds : List Char) (c : Char) (rest : List Char)
    (hne : ds ≠ []) (hds : ds.all (·.isDigit) = true) (hc : c.isDigit = false) :
    readNat (ds ++ c :: rest) = some (digitsVal ds, c :: rest) := by
  unfold readNat
  rw [takeWhile_digits_append ds c rest hds hc,
      dropWhile_digits_append ds c rest hds hc]
  simp only [List.isEmpty_eq_true]
  simp [hne]

lemma isNumeral_of_head_not_dash (d : Char) (ds : List Char) (hd : d ≠ '-')
    (hn : isNumeral (d :: ds) = true) : (d :: ds).all (·.isDigit) = true := by
  have heq : isNumeral (d :: ds) = (!(d :: ds).isEmpty && (d :: ds).all (·.isDigit)) := by
    simp only [isNumeral]
    split
    · next heq2 => exact absurd (List.cons_eq_cons.mp heq2).1 hd
    · rfl
  rw [heq] at hn
  exact ((Bool.and_eq_true _ _).mp hn).2

lemma numVal_of_head_not_dash (d : Char) (ds : List Char) (hd : d ≠ '-') :
    numVal (d :: ds) = (digitsVal (d :: ds) : Int) := by
  simp only [numVal]
  split
  · next heq2 => exact absurd (List.cons_eq_cons.mp heq2).1 hd
  · rfl

lemma isNumeral_dash (ds : List Char) :
    isNumeral ('-' :: ds) = (!ds.isEmpty && ds.all (·.isDigit)) := by
  simp only [isNumeral]

lemma numVal_dash (ds : List Char) :
    numVal ('-' :: ds) = -(digitsVal ds : Int) := by
  simp only [numVal]

lemma readInt_numeral (n : List Char) (c : Char) (rest : List Char)
    (hn : isNumeral n = true) (hc : c.isDigit = false) :
    readInt (n ++ c :: rest) = some (numVal n, c :: rest) := by
  cases n with
  | nil => simp [isNumeral] at hn
  | cons d ds =>
    by_cases hd : d = '-'
    · subst hd
      rw [isNumeral_dash] at hn
      simp only [Bool.and_eq_true, Bool.not_eq_true'] at hn
      have hne : ds ≠ [] := ne_nil_of_isEmpty_eq_false hn.1
      simp [readInt, numVal_dash, readNat_digits ds c rest hne hn.2 hc]
    · have hall := isNumeral_of_head_not_dash d ds hd hn
      have hcons : readInt ((d :: ds) ++ c :: rest) =
          (readNat ((d :: ds) ++ c :: rest)).map (fun p => ((p.1 : Int), p.2)) := by
        simp only [List.cons_append, readInt]
        split
        · next heq2 =>
          exact absurd (List.cons_eq_cons.mp heq2).1 hd
        · rfl
      rw [hcons, readNat_digits (d :: ds) c rest (by simp) hall hc,
          numVal_of_head_not_dash d ds hd]
      rfl

lemma numeral_no_bracket (n : List Char) (hn : isNumeral n = true) :
    '[' ∉ n := by
  intro hmem
  cases n with
  | nil => simp at hmem
  | cons d ds =>
    by_cases hd : d = '-'
    · subst hd
      rw [isNumeral_dash] at hn
      simp only [Bool.and_eq_true] at hn
      rcases List.mem_cons.mp hmem with h | h
      · exact absurd h (by decide)
      · have := List.all_eq_true.mp hn.2 '[' h
        simp [Char.isDigit] at this
    · have hall := isNumeral_of_head_not_dash d ds hd hn
      have := List.all_eq_true.mp hall '[' hmem
      simp [Char.isDigit] at this

lemma matchPair_numerals (a b : List Char) (rest : List Char)
    (ha : isNumeral a = true) (hb : isNumeral b = true) :
    matchPair (a ++ (',' :: (b ++ (']' :: rest)))) = some (numVal a, numVal b) := by
  unfold matchPair
  rw [readInt_numeral a ',' (b ++ (']' :: rest)) ha (by decide)]
  simp only
  rw [readInt_numeral b ']' rest hb (by decide)]
  rfl

lemma scanPairs_append_of_no_bracket (xs ys : List Char) (h : '[' ∉ xs) :
    scanPairs (xs ++ ys) = scanPairs ys := by
  induction xs with
  | nil => rfl
  | cons x xs ih =>
    have hx : x ≠ '[' := fun he => h (he ▸ List.mem_cons_self x xs)
    have hxs : '[' ∉ xs := fun hm => h (List.mem_cons_of_mem x hm)
    simp only [List.cons_append, scanPairs, if_neg hx]
    exact ih hxs

lemma scanPairs_boundsChars (a b c d : List Char)
    (ha : isNumeral a = true) (hb : isNumeral b = true)
    (hc : isNumeral c = true) (hd : isNumeral d = true) :
    scanPairs (boundsChars a b c d) = [(numVal a, numVal b), (numVal c, numVal d)] := by
  have hmid : a ++ (',' :: (b ++ (']' :: ('[' :: (c ++ (',' :: (d ++ [']'])))))) : List Char) =
      (a ++ (',' :: (b ++ [']']))) ++ ('[' :: (c ++ (',' :: (d ++ [']'])))) := by
    simp
  have h1 : scanPairs (boundsChars a b c d) =
      (numVal a, numVal b) ::
        scanPairs (a ++ (',' :: (b ++ (']' :: ('[' :: (c ++ (',' :: (d ++ [']'])))))))) := by
    simp only [boundsChars, scanPairs, if_pos rfl]
    rw [matchPair_numerals a b ('[' :: (c ++ (',' :: (d ++ [']'])))) ha hb]
    simp
  have h2 : scanPairs (a ++ (',' :: (b ++ (']' :: ('[' :: (c ++ (',' :: (d ++ [']'])))))))) =
      scanPairs ('[' :: (c ++ (',' :: (d ++ [']'])))) := by
    rw [hmid]
    apply scanPairs_append_of_no_bracket
    intro hmem
    rcases List.mem_append.mp hmem with h | h
    · exact numeral_no_bracket a ha h
    · rcases List.mem_cons.mp h with h | h
      · exact absurd h (by decide)
      · rcases List.mem_append.mp h with h | h
        · exact numeral_no_bracket b hb h
        · rcases List.mem_cons.mp h with h | h
          · exact absurd h (by decide)
          · simp at h
  have h3 : scanPairs ('[' :: (c ++ (',' :: (d ++ [']'])))) =
      (numVal c, numVal d) :: scanPairs (c ++ (',' :: (d ++ [']']))) := by
    simp only [scanPairs, if_pos rfl]
    rw [matchPair_numerals c d [] hc hd]
    simp
  have h4 : scanPairs (c ++ (',' :: (d ++ [']']))) = [] := by
    rw [show (c ++ (',' :: (d ++ [']'])) : List Char) =
          (c ++ (',' :: (d ++ [']']))) ++ ([] : List Char) by simp]
    rw [scanPairs_append_of_no_bracket]
    · rfl
    · intro hmem
      rcases List.mem_append.mp hmem with h | h
      · exact numeral_no_bracket c hc h
      · rcases List.mem_cons.mp h with h' | h'
        · exact absurd h' (by decide)
        · rcases List.mem_append.mp h' with h'' | h''
          · exact numeral_no_bracket d hd h''
          · rcases List.mem_cons.mp h'' with h3 | h3
            · exact absurd h3 (by decide)
            · simp at h3
  rw [h1, h2, h3, h4]

/-! ## The element tree, `UiNode` and `UixParser` (`uix_parser.py`) -/

/-- An XML element as `xml.etree` hands it to the parser: a tag, its
attributes in document order, and its child elements. -/
inductive XElem where
  | mk (tag : String) (attrs : List (String × String)) (children : List XElem)

def XElem.tag : XElem → String
  | .mk t _ _ => t

def XElem.attrs : XElem → List (String × String)
  | .mk _ a _ => a

def XElem.children : XElem → List XElem
  | .mk _ _ cs => cs

/-- `element.get(key, default)`: the first attribute named `key`, or the
default. -/
def XElem.get (e : XElem) (key dflt : String) : String :=
  (e.attrs.lookup key).getD dflt

/-- The scalar fields `UiNode.__init__` (uix_parser.py, lines 17–61)
derives from one element. -/
structure NodeAttrs where
  text : String
  resource_id : String
  class_name : String
  package : String
  content_desc : String
  index : String
  checkable : Bool
  checked : Bool
  clickable : Bool
  enabled : Bool
  focusable : Bool
  focused : Bool
  scrollable : Bool
  long_clickable : Bool
  password : Bool
  selected : Bool
  naf : Bool
  bounds_str : String
  rect : Int × Int × Int × Int
  valid_bounds : Bool
  deriving Repr, DecidableEq

/-- `UiNode.__init__` without the tree links: each attribute defaults as
in the source, `naf` is forced to true for structural wrappers (no text,
no resource id, no content description), and the bounds string (default
`"[0,0][0,0]"`) goes through `parse_bounds`. -/
def nodeAttrsOfElem (e : XElem) : NodeAttrs :=
  let text := e.get "text" ""
  let rid := e.get "resource-id" ""
  let desc := e.get "content-desc" ""
  let naf0 := e.get "NAF" "false" = "true"
  let bs := e.get "bounds" "[0,0][0,0]"
  let pb := parse_bounds bs
  { text := text
    resource_id := rid
    class_name := e.get "class" ""
    package := e.get "package" ""
    content_desc := desc
    index := e.get "index" "0"
    checkable := e.get "checkable" "false" = "true"
    checked := e.get "checked" "false" = "true"
    clickable := e.get "clickable" "false" = "true"
    enabled := e.get "enabled" "false" = "true"
    focusable := e.get "focusable" "false" = "true"
    focused := e.get "focused" "false" = "true"
    scrollable := e.get "scrollable" "false" = "true"
    long_clickable := e.get "long-clickable" "false" = "true"
    password := e.get "password" "false" = "true"
    selected := e.get "selected" "false" = "true"
    naf := if text = "" ∧ rid = "" ∧ desc = "" then true else decide naf0
    bounds_str := bs
    rect := pb.1
    valid_bounds := pb.2 }

/-- A node of the parsed hierarchy.  The Python object additionally
keeps a weak `parent` back-reference (never used for ownership); here
the tree is the children relation alone. -/
inductive UiNode where
  | mk (attrs : NodeAttrs) (children : List UiNode)

def UiNode.attrs : UiNode → NodeAttrs
  | .mk a _ => a

def UiNode.children : UiNode → List UiNode
  | .mk _ cs => cs

def UiNode.valid_bounds (n : UiNode) : Bool := n.attrs.valid_bounds

def UiNode.rect (n : UiNode) : Int × Int × Int × Int := n.attrs.rect

/- The recursive `build` closure inside `UixParser.parse`
(uix_parser.py, lines 169–178): every element yields a node, and every
child element is built and added — no node is skipped for any reason. -/
mutual

def build : XElem → UiNode
  | .mk t a cs => .mk (nodeAttrsOfElem (.mk t a cs)) (buildList cs)

def buildList : List XElem → List UiNode
  | [] => []
  | c :: cs => build c :: buildList cs

end

/- `total_nodes` as counted by `build` over the subtree it was run on. -/
mutual

def UiNode.total : UiNode → Nat
  | .mk _ cs => 1 + UiNode.totalList cs

def UiNode.totalList : List UiNode → Nat
  | [] => 0
  | c :: cs => UiNode.total c + UiNode.totalList cs

end

/- `valid_count` as counted by `build` over the subtree it was run on. -/
mutual

def UiNode.validCount : UiNode → Nat
  | .mk a cs => (if a.valid_bounds then 1 else 0) + UiNode.validCountList cs

def UiNode.validCountList : List UiNode → Nat
  | [] => 0
  | c :: cs => UiNode.validCount c + UiNode.validCountList cs

end

/- Number of elements of an element tree. -/
mutual

def XElem.count : XElem → Nat
  | .mk _ _ cs => 1 + XElem.countList cs

def XElem.countList : List XElem → Nat
  | [] => 0
  | c :: cs => XElem.count c + XElem.countList cs

end

/-- The start element chosen by `UixParser.parse` (uix_parser.py, lines
180–183): a `<hierarchy>` wrapper with at least one child is unwrapped
to its **first** child; anything else is parsed as is. -/
def startElement (root : XElem) : XElem :=
  match root with
  | .mk "hierarchy" _ (c :: _) => c
  | r => r

/-- `UixParser.parse` (uix_parser.py, lines 136–194).  The XML front end
(`_sanitize_xml` plus `ET.fromstring`, or `ET.parse` on a file path) is
modelled by its outcome: `.ok root` when a root element was recovered,
`.error msg` when it raised — in which case the surrounding
`try/except` returns `(None, True)`.  On success the returned flag is
`is_error = (valid_count == 0) and (total_nodes > 0)`, with both
counters accumulated by `build` over the start element's subtree. -/
def UixParser.parse (frontend : Except String XElem) : Option UiNode × Bool :=
  match frontend with
  | .error _ => (none, true)
  | .ok root =>
    let t := build (startElement root)
    (some t, decide (t.validCount = 0 ∧ 0 < t.total))

mutual

theorem build_total (e : XElem) : (build e).total = e.count := by
  cases e with
  | mk t a cs =>
    simp only [build, UiNode.total, XElem.count, build_totalList cs]

theorem build_totalList (cs : List XElem) :
    UiNode.totalList (buildList cs) = XElem.countList cs := by
  cases cs with
  | nil => rfl
  | cons c cs =>
    simp only [buildList, UiNode.totalList, XElem.countList,
      build_total c, build_totalList cs]

end

theorem total_pos (n : UiNode) : 0 < n.total := by
  cases n with
  | mk a cs => simp [UiNode.total]

/- Whether a dump (element tree) contains at least one element whose
`bounds` attribute parses as valid — over the *whole* tree, siblings of
the first top-level child included. -/
mutual

def elemHasValid : XElem → Bool
  | .mk t a cs =>
    (parse_bounds (XElem.get (.mk t a cs) "bounds" "[0,0][0,0]")).2 ||
      elemHasValidList cs

def elemHasValidList : List XElem → Bool
  | [] => false
  | c :: cs => elemHasValid c || elemHasValidList cs

end

/-! ## Claim C1 -/

/-- **C1**: for every bounds string of the form `[x1,y1][x2,y2]` (four
signed decimal numerals), `parse_bounds` stores
`rect = (x1, y1, x2-x1, y2-y1)` and returns `valid = true` exactly when
`x2 > x1` and `y2 > y1` (any other numeric relationship gives
`valid = false`); and the tree builder retains every node regardless of
bounds validity — the built tree has exactly one node per element. -/
theorem C1_parse_bounds_valid_iff_positive_extent :
    (∀ a b c d : List Char,
      isNumeral a = true → isNumeral b = true →
      isNumeral c = true → isNumeral d = true →
      parse_bounds (String.mk (boundsChars a b c d)) =
        ((numVal a, numVal b, numVal c - numVal a, numVal d - numVal b),
         decide (numVal a < numVal c ∧ numVal b < numVal d))) ∧
    (∀ e : XElem, (build e).total = e.count) := by
  constructor
  · intro a b c d ha hb hc hd
    have hs : (String.mk (boundsChars a b c d)).data = boundsChars a b c d := rfl
    unfold parse_bounds
    rw [hs, scanPairs_boundsChars a b c d ha hb hc hd]
    simp only
    congr 1
    rw [decide_eq_decide]
    omega
  · exact build_total

/-- Witness for C1 at the concrete bounds string `[10,20][110,70]`. -/
theorem C1_witness :
    parse_bounds (String.mk (boundsChars ['1', '0'] ['2', '0'] ['1', '1', '0'] ['7', '0'])) =
      ((10, 20, 100, 50), true) := by
  rw [C1_parse_bounds_valid_iff_positive_extent.1 ['1', '0'] ['2', '0'] ['1', '1', '0'] ['7', '0']
    (by decide) (by decide) (by decide) (by decide)]
  decide

/-! ## Claim C10 -/

/-- **C10**: when the root element is the `<hierarchy>` wrapper with
more than one direct child, `UixParser.parse` builds the returned tree
from the first child only: the result (tree and zero-bounds flag alike)
is the same as if the later siblings were absent, and the returned root
is exactly the tree built from the first child. -/
theorem C10_extra_hierarchy_children_dropped :
    ∀ (attrs : List (String × String)) (c1 : XElem) (rest : List XElem),
      UixParser.parse (.ok (.mk "hierarchy" attrs (c1 :: rest))) =
        UixParser.parse (.ok (.mk "hierarchy" attrs [c1])) ∧
      (UixParser.parse (.ok (.mk "hierarchy" attrs (c1 :: rest)))).1 = some (build c1) :=
  fun _ _ _ => ⟨rfl, rfl⟩

/-! ## Claim C4 (corrected) -/

/-- A dump whose `<hierarchy>` wrapper has two children: an invalid-
bounds first child and a valid-bounds second child, i.e. the sanitized
form of
`<hierarchy><node bounds="[0,0][0,0]"/><node bounds="[0,0][10,10]"/></hierarchy>`. -/
def c4Dump : XElem :=
  .mk "hierarchy" []
    [.mk "node" [("bounds", "[0,0][0,0]")] [],
     .mk "node" [("bounds", "[0,0][10,10]")] []]

/-- **C4, counterexample**: the claim "for a dump containing at least
one valid-bounds element the flag is false" fails: `c4Dump` contains a
valid-bounds element, yet `parse` returns a non-null root with the
zero-bounds flag `true`, because the valid element is a second
top-level child and is dropped before the counters run. -/
theorem C4_counterexample :
    elemHasValid c4Dump = true ∧
    (UixParser.parse (.ok c4Dump)).1.isSome = true ∧
    (UixParser.parse (.ok c4Dump)).2 = true := by
  decide

/-- **C4 (amended)**: `UixParser.parse` never throws — every front-end
outcome yields a `(root?, flag)` pair; it returns a null root only when
the front end recovered no element at all, and then the flag is `true`;
on success the root is the tree built from the chosen start element and
the flag is `true` exactly when *no retained node* (the start element's
subtree — the first top-level child when the `<hierarchy>` wrapper has
children) has valid bounds.  (The claim's original form counted valid
elements anywhere in the dump; siblings dropped by the wrapper
unwrapping are excluded, as `C4_counterexample` shows.) -/
theorem C4_parse_contract :
    (∀ msg, UixParser.parse (.error msg) = (none, true)) ∧
    (∀ fr : Except String XElem, (UixParser.parse fr).1 = none →
      (UixParser.parse fr).2 = true ∧ ∃ msg, fr = .error msg) ∧
    (∀ root : XElem,
      (UixParser.parse (.ok root)).1 = some (build (startElement root)) ∧
      ((UixParser.parse (.ok root)).2 = true ↔
        (build (startElement root)).validCount = 0)) := by
  refine ⟨fun msg => rfl, ?_, ?_⟩
  · intro fr h
    cases fr with
    | error msg => exact ⟨rfl, msg, rfl⟩
    | ok root => simp [UixParser.parse] at h
  · intro root
    refine ⟨rfl, ?_⟩
    simp only [UixParser.parse, decide_eq_true_eq]
    constructor
    · intro h
      exact h.1
    · intro h
      exact ⟨h, total_pos _⟩

/-- Witness for C4 (amended): the null-root clause applied at a
concrete failing front end (hypothesis discharged by `rfl`), and the
flag clause applied at the concrete dump `c4Dump`. -/
theorem C4_witness :
    ((UixParser.parse (Except.error "XML Parse Error" : Except String XElem)).2 = true ∧
      ∃ msg, (Except.error "XML Parse Error" : Except String XElem) = Except.error msg) ∧
    (UixParser.parse (.ok c4Dump)).2 = true :=
  ⟨C4_parse_contract.2.1 (Except.error "XML Parse Error") rfl,
   ((C4_parse_contract.2.2 c4Dump).2).mpr (by decide)⟩

/-! ## Hit testing (`gui.py`)

`populate_tree` (gui.py, lines 1084–1093) fills `self.rect_map` with
`(node.rect, node)` for every node with `valid_bounds`, the node before
its children, children in order; nodes with invalid bounds are never
appended.  `find_node_at` (gui.py, lines 1494–1505) scales each stored
rect by the current transform and keeps the containing candidate with
the strictly smallest area seen so far.  The float arithmetic of the
transform is modelled exactly over `ℚ`. -/

mutual

def rectMap : UiNode → List ((Int × Int × Int × Int) × UiNode)
  | .mk a cs =>
    (if a.valid_bounds then [(a.rect, UiNode.mk a cs)] else []) ++ rectMapList cs

def rectMapList : List UiNode → List ((Int × Int × Int × Int) × UiNode)
  | [] => []
  | c :: cs => rectMap c ++ rectMapList cs

end

/-- `scale_rect` (gui.py, lines 1520–1522). -/
def scale_rect (rect : Int × Int × Int × Int) (sx sy ox oy : ℚ) : ℚ × ℚ × ℚ × ℚ :=
  ((rect.1 - ox) * sx, (rect.2.1 - oy) * sy, rect.2.2.1 * sx, rect.2.2.2 * sy)

/-- The containment test `rx <= x <= rx + rw and ry <= y <= ry + rh`. -/
def containsPt (r : ℚ × ℚ × ℚ × ℚ) (x y : ℚ) : Bool :=
  decide (r.1 ≤ x ∧ x ≤ r.1 + r.2.2.1 ∧ r.2.1 ≤ y ∧ y ≤ r.2.1 + r.2.2.2)

/-- `area = rw * rh` on a scaled rect. -/
def rectArea (r : ℚ × ℚ × ℚ × ℚ) : ℚ := r.2.2.1 * r.2.2.2

/-- One iteration of the `find_node_at` loop: the accumulator is
`(best_area, best_node)`, `none` standing for the initial
`best_area = inf, best_node = None`. -/
def hitStep (x y sx sy ox oy : ℚ) (acc : Option (ℚ × UiNode))
    (e : (Int × Int × Int × Int) × UiNode) : Option (ℚ × UiNode) :=
  let s := scale_rect e.1 sx sy ox oy
  if containsPt s x y then
    match acc with
    | none => some (rectArea s, e.2)
    | some (ba, bn) =>
      if rectArea s < ba then some (rectArea s, e.2) else some (ba, bn)
  else acc

/-- `find_node_at` (gui.py, lines 1494–1505). -/
def find_node_at (entries : List ((Int × Int × Int × Int) × UiNode))
    (x y sx sy ox oy : ℚ) : Option UiNode :=
  (entries.foldl (hitStep x y sx sy ox oy) none).map (·.2)

mutual

theorem rectMap_valid (n : UiNode) :
    ∀ p ∈ rectMap n, p.2.valid_bounds = true ∧ p.1 = p.2.rect := by
  cases n with
  | mk a cs =>
    intro p hp
    simp only [rectMap, List.mem_append] at hp
    rcases hp with hp | hp
    · by_cases hv : a.valid_bounds
      · rw [if_pos hv] at hp
        simp only [List.mem_singleton] at hp
        subst hp
        exact ⟨hv, rfl⟩
      · rw [if_neg hv] at hp
        simp at hp
    · exact rectMapList_valid cs p hp

theorem rectMapList_valid (cs : List UiNode) :
    ∀ p ∈ rectMapList cs, p.2.valid_bounds = true ∧ p.1 = p.2.rect := by
  cases cs with
  | nil => intro p hp; simp [rectMapList] at hp
  | cons c cs =>
    intro p hp
    simp only [rectMapList, List.mem_append] at hp
    rcases hp with hp | hp
    · exact rectMap_valid c p hp
    · exact rectMapList_valid cs p hp

end

lemma hitFold_spec (x y sx sy ox oy : ℚ) :
    ∀ (entries : List ((Int × Int × Int × Int) × UiNode))
      (acc : Option (ℚ × UiNode)) (a : ℚ) (n : UiNode),
      entries.foldl (hitStep x y sx sy ox oy) acc = some (a, n) →
      ((∃ r, (r, n) ∈ entries ∧ containsPt (scale_rect r sx sy ox oy) x y = true ∧
          a = rectArea (scale_rect r sx sy ox oy)) ∨ acc = some (a, n)) ∧
      (∀ r m, (r, m) ∈ entries → containsPt (scale_rect r sx sy ox oy) x y = true →
        a ≤ rectArea (scale_rect r sx sy ox oy)) ∧
      (∀ b m0, acc = some (b, m0) → a ≤ b) := by
  intro entries
  induction entries with
  | nil =>
    intro acc a n h
    simp only [List.foldl_nil] at h
    refine ⟨Or.inr h, ?_, ?_⟩
    · intro r m hm
      simp at hm
    · intro b m0 hb
      rw [h] at hb
      injection hb with hb'
      injection hb' with h1 h2
      exact le_of_eq h1
  | cons e rest ih =>
    intro acc a n h
    simp only [List.foldl_cons] at h
    obtain ⟨h1, h2, h3⟩ := ih (hitStep x y sx sy ox oy acc e) a n h
    by_cases hcont : containsPt (scale_rect e.1 sx sy ox oy) x y = true
    · cases acc with
      | none =>
        have hstep : hitStep x y sx sy ox oy none e =
            some (rectArea (scale_rect e.1 sx sy ox oy), e.2) := by
          simp [hitStep, hcont]
        have hle : a ≤ rectArea (scale_rect e.1 sx sy ox oy) := h3 _ _ hstep
        refine ⟨?_, ?_, ?_⟩
        · rcases h1 with h1 | h1
          · obtain ⟨r, hr, hc, ha⟩ := h1
            exact Or.inl ⟨r, List.mem_cons_of_mem e hr, hc, ha⟩
          · rw [hstep] at h1
            injection h1 with h1'
            injection h1' with ha hn
            subst hn
            exact Or.inl ⟨e.1, by simp, hcont, ha.symm⟩
        · intro r m hm hc
          rcases List.mem_cons.mp hm with hm | hm
          · have hre : r = e.1 := congrArg Prod.fst hm
            subst hre
            exact hle
          · exact h2 r m hm hc
        · intro b m0 hb
          simp at hb
      | some p =>
        obtain ⟨ba, bn⟩ := p
        by_cases hlt : rectArea (scale_rect e.1 sx sy ox oy) < ba
        · have hstep : hitStep x y sx sy ox oy (some (ba, bn)) e =
              some (rectArea (scale_rect e.1 sx sy ox oy), e.2) := by
            simp [hitStep, hcont, hlt]
          have hle : a ≤ rectArea (scale_rect e.1 sx sy ox oy) := h3 _ _ hstep
          refine ⟨?_, ?_, ?_⟩
          · rcases h1 with h1 | h1
            · obtain ⟨r, hr, hc, ha⟩ := h1
              exact Or.inl ⟨r, List.mem_cons_of_mem e hr, hc, ha⟩
            · rw [hstep] at h1
              injection h1 with h1'
              injection h1' with ha hn
              subst hn
              exact Or.inl ⟨e.1, by simp, hcont, ha.symm⟩
          · intro r m hm hc
            rcases List.mem_cons.mp hm with hm | hm
            · have hre : r = e.1 := congrArg Prod.fst hm
              subst hre
              exact hle
            · exact h2 r m hm hc
          · intro b m0 hb
            injection hb with hb'
            injection hb' with hb1 hb2
            subst hb1
            exact le_trans hle (le_of_lt hlt)
        · have hstep : hitStep x y sx sy ox oy (some (ba, bn)) e = some (ba, bn) := by
            simp [hitStep, hcont, hlt]
          have hle : a ≤ ba := h3 _ _ hstep
          refine ⟨?_, ?_, ?_⟩
          · rcases h1 with h1 | h1
            · obtain ⟨r, hr, hc, ha⟩ := h1
              exact Or.inl ⟨r, List.mem_cons_of_mem e hr, hc, ha⟩
            · rw [hstep] at h1
              exact Or.inr h1
          · intro r m hm hc
            rcases List.mem_cons.mp hm with hm | hm
            · have hre : r = e.1 := congrArg Prod.fst hm
              subst hre
              exact le_trans hle (not_lt.mp hlt)
            · exact h2 r m hm hc
          · intro b m0 hb
            injection hb with hb'
            injection hb' with hb1 hb2
            subst hb1
            exact hle
    · have hstep : hitStep x y sx sy ox oy acc e = acc := by
        simp only [hitStep]
        rw [if_neg (by simpa using hcont)]
      rw [hstep] at h1 h3
      refine ⟨?_, ?_, h3⟩
      · rcases h1 with h1 | h1
        · obtain ⟨r, hr, hc, ha⟩ := h1
          exact Or.inl ⟨r, List.mem_cons_of_mem e hr, hc, ha⟩
        · exact Or.inr h1
      · intro r m hm hc
        rcases List.mem_cons.mp hm with hm | hm
        · have hre : r = e.1 := congrArg Prod.fst hm
          subst hre
          exact absurd hc hcont
        · exact h2 r m hm hc

/-! ## Claim C2 -/

/-- **C2**: on the hit-test map built by `populate_tree` from any tree,
`find_node_at` only ever returns a node whose scaled rectangle contains
the query point; a returned node always has valid bounds (invalid-
bounds nodes are never in the map); and the returned node's scaled area
is at most the scaled area of every other candidate in the map whose
scaled rectangle contains the point. -/
theorem C2_find_node_at_sound_and_minimal :
    ∀ (root : UiNode) (x y sx sy ox oy : ℚ) (n : UiNode),
      find_node_at (rectMap root) x y sx sy ox oy = some n →
      n.valid_bounds = true ∧
      containsPt (scale_rect n.rect sx sy ox oy) x y = true ∧
      ∀ r m, (r, m) ∈ rectMap root →
        containsPt (scale_rect r sx sy ox oy) x y = true →
        rectArea (scale_rect n.rect sx sy ox oy) ≤ rectArea (scale_rect r sx sy ox oy) := by
  intro root x y sx sy ox oy n hfind
  unfold find_node_at at hfind
  obtain ⟨p, hp, hpn⟩ := Option.map_eq_some'.mp hfind
  obtain ⟨a, n2⟩ := p
  simp only at hpn
  rw [hpn] at hp
  obtain ⟨h1, h2, h3⟩ := hitFold_spec x y sx sy ox oy (rectMap root) none a n hp
  rcases h1 with h1 | h1
  · obtain ⟨r, hr, hc, ha⟩ := h1
    obtain ⟨hv, hrect⟩ := rectMap_valid root (r, n) hr
    simp only at hv hrect
    refine ⟨hv, ?_, ?_⟩
    · rw [← hrect]
      exact hc
    · intro r' m' hm' hc'
      rw [← hrect, ← ha]
      exact h2 r' m' hm' hc'
  · simp at h1

/-- A concrete two-node tree for the C2 witness: an outer valid node
`[0,0][10,10]` containing an inner valid node `[2,2][6,6]`. -/
def demoAttrs (bounds : String) : NodeAttrs :=
  nodeAttrsOfElem (.mk "node" [("bounds", bounds)] [])

def demoInner : UiNode := .mk (demoAttrs "[2,2][6,6]") []

def demoRoot : UiNode := .mk (demoAttrs "[0,0][10,10]") [demoInner]

lemma demoRoot_valid : (demoAttrs "[0,0][10,10]").valid_bounds = true := by decide

lemma demoInner_valid : (demoAttrs "[2,2][6,6]").valid_bounds = true := by decide

lemma demoRoot_rect :
    (demoAttrs "[0,0][10,10]").rect = ((0 : Int), (0 : Int), (10 : Int), (10 : Int)) := by
  decide

lemma demoInner_rect :
    (demoAttrs "[2,2][6,6]").rect = ((2 : Int), (2 : Int), (4 : Int), (4 : Int)) := by
  decide

lemma demo_rectMap : rectMap demoRoot =
    [(((0 : Int), (0 : Int), (10 : Int), (10 : Int)), demoRoot),
     (((2 : Int), (2 : Int), (4 : Int), (4 : Int)), demoInner)] := by
  conv_lhs => simp only [demoRoot, demoInner, rectMap, rectMapList, UiNode.attrs,
    demoRoot_valid, demoInner_valid, demoRoot_rect, demoInner_rect, if_true]
  simp [demoRoot, demoInner]

lemma demo_contains_outer :
    containsPt (scale_rect ((0 : Int), (0 : Int), (10 : Int), (10 : Int)) 1 1 0 0) 3 3 = true := by
  simp only [containsPt, scale_rect, decide_eq_true_eq]
  norm_num

lemma demo_contains_inner :
    containsPt (scale_rect ((2 : Int), (2 : Int), (4 : Int), (4 : Int)) 1 1 0 0) 3 3 = true := by
  simp only [containsPt, scale_rect, decide_eq_true_eq]
  norm_num

lemma demo_area_lt :
    rectArea (scale_rect ((2 : Int), (2 : Int), (4 : Int), (4 : Int)) 1 1 0 0) <
      rectArea (scale_rect ((0 : Int), (0 : Int), (10 : Int), (10 : Int)) 1 1 0 0) := by
  simp only [rectArea, scale_rect]
  norm_num

lemma demo_find :
    find_node_at (rectMap demoRoot) 3 3 1 1 0 0 = some demoInner := by
  rw [demo_rectMap]
  simp [find_node_at, hitStep, demo_contains_outer, demo_contains_inner, demo_area_lt]

/-- Witness for C2 at the identity transform and query point `(3, 3)`:
`find_node_at` picks the inner (smaller) node and the theorem's
conclusions hold for it. -/
theorem C2_witness :
    demoInner.valid_bounds = true ∧
    containsPt (scale_rect demoInner.rect 1 1 0 0) 3 3 = true ∧
    ∀ r m, (r, m) ∈ rectMap demoRoot →
      containsPt (scale_rect r 1 1 0 0) 3 3 = true →
      rectArea (scale_rect demoInner.rect 1 1 0 0) ≤ rectArea (scale_rect r 1 1 0 0) :=
  C2_find_node_at_sound_and_minimal demoRoot 3 3 1 1 0 0 demoInner demo_find

/-! ## Locator suggestion (`locator_suggester.py`)

The Python code walks `node.parent` links; here the ancestor chain
(parent first, then grandparent, …) is passed explicitly.  String
membership `x in y` is substring containment, modelled as list-infix on
the character lists. -/

/-- Python's `needle in hay` on strings. -/
def strContains (needle hay : String) : Bool :=
  decide (needle.data <:+: hay.data)

/-- Python's `text.split("'")`. -/
def splitQuote : List Char → List (List Char)
  | [] => [[]]
  | c :: cs =>
    if c = '\'' then [] :: splitQuote cs
    else
      match splitQuote cs with
      | h :: t => (c :: h) :: t
      | [] => [[c]]

/-- `LocatorUtils.escape_xpath_string` (locator_suggester.py, lines
15–28): a literal containing a single quote is rebuilt as
`concat('part', "'", 'part', …)`; otherwise it is wrapped in single
quotes. -/
def LocatorUtils.escape_xpath_string (text : String) : String :=
  if '\'' ∈ text.data then
    let parts := splitQuote text.data
    let args := parts.map (fun p => "'" ++ String.mk p ++ "'")
    "concat(" ++ String.intercalate ", \"'\", " args ++ ")"
  else "'" ++ text ++ "'"

/-- One entry of the list `generate_locators` returns: the dict keys
`type` (here `kind`), `xpath` and `score`. -/
structure Suggestion where
  kind : String
  xpath : String
  score : Nat
  deriving Repr, DecidableEq

/-- The generic container ids the anchor walk rejects. -/
def badIds : List String := ["android:id/content", "android:id/body", "id/container"]

/-- The anchor walk of `_generate_scoped_locator` (locator_suggester.py,
lines 91–105): the nearest ancestor with a non-empty resource id that
contains none of the generic ids. -/
def findAnchor : List NodeAttrs → Option NodeAttrs
  | [] => none
  | c :: rest =>
    if c.resource_id ≠ "" then
      if badIds.any (fun b => strContains b c.resource_id) then findAnchor rest
      else some c
    else findAnchor rest

/-- `LocatorSuggester._generate_scoped_locator` (locator_suggester.py,
lines 86–128). -/
def LocatorSuggester.genScopedLocator (node : NodeAttrs) (ancestors : List NodeAttrs) :
    Option Suggestion :=
  match findAnchor ancestors with
  | none => none
  | some anchor =>
    let anchorXpath := "//*[@resource-id='" ++ anchor.resource_id ++ "']"
    let targetXpath :=
      if node.text ≠ "" then
        ".//" ++ node.class_name ++ "[@text=" ++
          LocatorUtils.escape_xpath_string node.text ++ "]"
      else if node.content_desc ≠ "" then
        ".//*[@content-desc=" ++ LocatorUtils.escape_xpath_string node.content_desc ++ "]"
      else if node.resource_id ≠ "" then
        ".//*[@resource-id='" ++ node.resource_id ++ "']"
      else ".//" ++ node.class_name
    some ⟨"Scoped (Parent -> Child)", anchorXpath ++ targetXpath, 20⟩

/-- `LocatorSuggester.generate_locators` (locator_suggester.py, lines
35–84): scoped suggestion first (score 20), then Direct ID (score 10,
skipped when the id contains `id/content`), then Text Match (score 5),
then Content-Desc (score 8). -/
def LocatorSuggester.generate_locators (node : NodeAttrs) (ancestors : List NodeAttrs) :
    List Suggestion :=
  (match LocatorSuggester.genScopedLocator node ancestors with
   | some s => [s]
   | none => []) ++
  (if node.resource_id ≠ "" ∧ strContains "id/content" node.resource_id = false then
    [⟨"Direct ID", "//*[@resource-id='" ++ node.resource_id ++ "']", 10⟩]
  else []) ++
  (if node.text ≠ "" then
    [⟨"Text Match",
      "//" ++ node.class_name ++ "[@text=" ++
        LocatorUtils.escape_xpath_string node.text ++ "]", 5⟩]
  else []) ++
  (if node.content_desc ≠ "" then
    [⟨"Content-Desc",
      "//*[@content-desc=" ++ LocatorUtils.escape_xpath_string node.content_desc ++ "]", 8⟩]
  else [])

/-- Node attributes built the way the parser builds them, for concrete
locator inputs. -/
def mkAttrs (text rid cls desc : String) : NodeAttrs :=
  nodeAttrsOfElem (.mk "node"
    [("text", text), ("resource-id", rid), ("class", cls), ("content-desc", desc)] [])

lemma genScoped_kind_score (node : NodeAttrs) (ancestors : List NodeAttrs) (s : Suggestion)
    (h : LocatorSuggester.genScopedLocator node ancestors = some s) :
    s.kind = "Scoped (Parent -> Child)" ∧ s.score = 20 := by
  unfold LocatorSuggester.genScopedLocator at h
  cases hA : findAnchor ancestors with
  | none => rw [hA] at h; exact absurd h (by simp)
  | some anchor =>
    rw [hA] at h
    simp only [Option.some_inj] at h
    subst h
    exact ⟨rfl, rfl⟩

lemma mem_generate_locators (node : NodeAttrs) (ancestors : List NodeAttrs) (s : Suggestion)
    (hs : s ∈ LocatorSuggester.generate_locators node ancestors) :
    (s.kind = "Scoped (Parent -> Child)" ∧ s.score = 20) ∨
    (s.kind = "Direct ID" ∧ s.score = 10) ∨
    (s.kind = "Text Match" ∧ s.score = 5) ∨
    (s.kind = "Content-Desc" ∧ s.score = 8) := by
  unfold LocatorSuggester.generate_locators at hs
  rcases List.mem_append.mp hs with h | h
  · rcases List.mem_append.mp h with h | h
    · rcases List.mem_append.mp h with h | h
      · cases hA : LocatorSuggester.genScopedLocator node ancestors with
        | none => rw [hA] at h; simp at h
        | some sug =>
          rw [hA] at h
          simp only [List.mem_singleton] at h
          subst h
          exact Or.inl (genScoped_kind_score node ancestors _ hA)
      · by_cases hcond : node.resource_id ≠ "" ∧ strContains "id/content" node.resource_id = false
        · rw [if_pos hcond] at h
          simp only [List.mem_singleton] at h
          subst h
          exact Or.inr (Or.inl ⟨rfl, rfl⟩)
        · rw [if_neg hcond] at h
          simp at h
    · by_cases hcond : node.text ≠ ""
      · rw [if_pos hcond] at h
        simp only [List.mem_singleton] at h
        subst h
        exact Or.inr (Or.inr (Or.inl ⟨rfl, rfl⟩))
      · rw [if_neg hcond] at h
        simp at h
  · by_cases hcond : node.content_desc ≠ ""
    · rw [if_pos hcond] at h
      simp only [List.mem_singleton] at h
      subst h
      exact Or.inr (Or.inr (Or.inr ⟨rfl, rfl⟩))
    · rw [if_neg hcond] at h
      simp at h

/-! ## Claim C6 (corrected) -/

/-- **C6, counterexample**: for a node carrying both a (non-generic)
resource id and a content description, both the Direct ID and the
Content-Desc strategies fire, but the Direct ID suggestion scores 10
while Content-Desc scores 8 — the content-description suggestion does
*not* outrank the direct-id one, contradicting the claimed order
scoped > content-description > direct-id > text. -/
theorem C6_counterexample :
    ∃ s t : Suggestion,
      s ∈ LocatorSuggester.generate_locators (mkAttrs "" "app:id/ok" "X" "Done") [] ∧
      t ∈ LocatorSuggester.generate_locators (mkAttrs "" "app:id/ok" "X" "Done") [] ∧
      s.kind = "Content-Desc" ∧ t.kind = "Direct ID" ∧ ¬ t.score < s.score := by
  refine ⟨⟨"Content-Desc", "//*[@content-desc='Done']", 8⟩,
          ⟨"Direct ID", "//*[@resource-id='app:id/ok']", 10⟩,
          ?_, ?_, rfl, rfl, by decide⟩
  · decide
  · decide

/-- **C6 (amended)**: the rank order realized by the scores is the
fixed priority scoped (20) > direct-id (10) > content-description (8)
> text (5): whenever two of these strategies both produce a suggestion
for the same node, the one earlier in *this* order has the strictly
higher score.  (The claim's original order placed content-description
above direct-id; the code scores them 8 and 10.) -/
theorem C6_fixed_priority_scoped_id_desc_text :
    ∀ (node : NodeAttrs) (ancestors : List NodeAttrs) (s t : Suggestion),
      s ∈ LocatorSuggester.generate_locators node ancestors →
      t ∈ LocatorSuggester.generate_locators node ancestors →
      ((s.kind = "Scoped (Parent -> Child)" ∧ t.kind = "Direct ID") ∨
       (s.kind = "Scoped (Parent -> Child)" ∧ t.kind = "Content-Desc") ∨
       (s.kind = "Scoped (Parent -> Child)" ∧ t.kind = "Text Match") ∨
       (s.kind = "Direct ID" ∧ t.kind = "Content-Desc") ∨
       (s.kind = "Direct ID" ∧ t.kind = "Text Match") ∨
       (s.kind = "Content-Desc" ∧ t.kind = "Text Match")) →
      t.score < s.score := by
  intro node ancestors s t hs ht hpair
  have Hs := mem_generate_locators node ancestors s hs
  have Ht := mem_generate_locators node ancestors t ht
  rcases hpair with ⟨h1, h2⟩ | ⟨h1, h2⟩ | ⟨h1, h2⟩ | ⟨h1, h2⟩ | ⟨h1, h2⟩ | ⟨h1, h2⟩ <;>
    rcases Hs with ⟨k1, v1⟩ | ⟨k1, v1⟩ | ⟨k1, v1⟩ | ⟨k1, v1⟩ <;>
      rcases Ht with ⟨k2, v2⟩ | ⟨k2, v2⟩ | ⟨k2, v2⟩ | ⟨k2, v2⟩ <;>
        first
        | (rw [h1] at k1; exact absurd k1 (by decide))
        | (rw [h2] at k2; exact absurd k2 (by decide))
        | (rw [v1, v2]; omega)

/-- Witness for C6 (amended) on a node for which all four strategies
fire (text, description, non-generic id, and an anchored ancestor):
instantiating the priority theorem at the Direct ID / Content-Desc
pair. -/
theorem C6_witness :
    (10 : Nat) > 8 ∧
    (⟨"Direct ID", "//*[@resource-id='app:id/ok']", 10⟩ : Suggestion) ∈
      LocatorSuggester.generate_locators (mkAttrs "Go" "app:id/ok" "X" "Done")
        [mkAttrs "" "app:id/panel" "Y" ""] := by
  constructor
  · exact C6_fixed_priority_scoped_id_desc_text
      (mkAttrs "Go" "app:id/ok" "X" "Done") [mkAttrs "" "app:id/panel" "Y" ""]
      ⟨"Direct ID", "//*[@resource-id='app:id/ok']", 10⟩
      ⟨"Content-Desc", "//*[@content-desc='Done']", 8⟩
      (by decide) (by decide) (by simp)
  · decide

/-! ## Claim C7 (corrected) -/

lemma splitQuote_ne_nil (cs : List Char) : splitQuote cs ≠ [] := by
  induction cs with
  | nil => simp [splitQuote]
  | cons c cs ih =>
    simp only [splitQuote]
    by_cases hc : c = '\''
    · rw [if_pos hc]
      simp
    · rw [if_neg hc]
      cases hsq : splitQuote cs with
      | nil => simp
      | cons h t => simp

lemma splitQuote_no_quote (cs : List Char) :
    ∀ p ∈ splitQuote cs, '\'' ∉ p := by
  induction cs with
  | nil =>
    intro p hp
    simp only [splitQuote, List.mem_singleton] at hp
    subst hp
    simp
  | cons c cs ih =>
    intro p hp
    simp only [splitQuote] at hp
    by_cases hc : c = '\''
    · rw [if_pos hc] at hp
      rcases List.mem_cons.mp hp with hp | hp
      · subst hp; simp
      · exact ih p hp
    · rw [if_neg hc] at hp
      cases hsq : splitQuote cs with
      | nil => exact absurd hsq (splitQuote_ne_nil cs)
      | cons h t =>
        rw [hsq] at hp
        rcases List.mem_cons.mp hp with hp | hp
        · subst hp
          intro hmem
          rcases List.mem_cons.mp hmem with hmem | hmem
          · exact hc hmem.symm
          · exact ih h (hsq ▸ List.mem_cons_self h t) hmem
        · exact ih p (hsq ▸ List.mem_cons_of_mem h hp)

/-- **C7, counterexample**: a resource id containing a single quote is
embedded verbatim between bare single quotes — the Direct ID expression
for id `a'b` is `//*[@resource-id='a'b']`, which contains an unescaped
quoted literal and no `concat(` anywhere, contradicting "every
generated expression that embeds such a literal switches to the concat
form". -/
theorem C7_counterexample :
    ∃ s : Suggestion,
      s ∈ LocatorSuggester.generate_locators (mkAttrs "" "a'b" "X" "") [] ∧
      '\'' ∈ (mkAttrs "" "a'b" "X" "").resource_id.data ∧
      s.xpath = "//*[@resource-id='a'b']" ∧
      strContains "concat(" s.xpath = false := by
  refine ⟨⟨"Direct ID", "//*[@resource-id='a'b']", 10⟩, ?_, ?_, rfl, ?_⟩
  · decide
  · decide
  · decide

/-- **C7 (amended)**: the quote-escaping guarantee holds for the text
and content-description literals — the unscoped Text Match /
Content-Desc expressions and the scoped strategy's text / description
targets all go through `escape_xpath_string`, which, whenever the
literal contains a single quote, produces a `concat(...)` of quote-free
parts — but *not* for resource-id literals: the scoped anchor id and
the scoped resource-id target (like the Direct ID expression of
`C7_counterexample`) are embedded verbatim between single quotes. -/
theorem C7_text_and_desc_escaped :
    (∀ s : String, '\'' ∈ s.data →
      ∃ parts : List (List Char), parts ≠ [] ∧ (∀ p ∈ parts, '\'' ∉ p) ∧
        LocatorUtils.escape_xpath_string s =
          "concat(" ++ String.intercalate ", \"'\", "
            (parts.map (fun p => "'" ++ String.mk p ++ "'")) ++ ")") ∧
    (∀ (node : NodeAttrs) (ancestors : List NodeAttrs), node.text ≠ "" →
      (⟨"Text Match",
        "//" ++ node.class_name ++ "[@text=" ++
          LocatorUtils.escape_xpath_string node.text ++ "]", 5⟩ : Suggestion) ∈
        LocatorSuggester.generate_locators node ancestors) ∧
    (∀ (node : NodeAttrs) (ancestors : List NodeAttrs), node.content_desc ≠ "" →
      (⟨"Content-Desc",
        "//*[@content-desc=" ++ LocatorUtils.escape_xpath_string node.content_desc ++ "]",
        8⟩ : Suggestion) ∈
        LocatorSuggester.generate_locators node ancestors) ∧
    (∀ (node anchor : NodeAttrs) (ancestors : List NodeAttrs),
      findAnchor ancestors = some anchor → node.text ≠ "" →
      LocatorSuggester.genScopedLocator node ancestors =
        some ⟨"Scoped (Parent -> Child)",
          "//*[@resource-id='" ++ anchor.resource_id ++ "']" ++
            (".//" ++ node.class_name ++ "[@text=" ++
              LocatorUtils.escape_xpath_string node.text ++ "]"), 20⟩ ∧
      (⟨"Scoped (Parent -> Child)",
        "//*[@resource-id='" ++ anchor.resource_id ++ "']" ++
          (".//" ++ node.class_name ++ "[@text=" ++
            LocatorUtils.escape_xpath_string node.text ++ "]"), 20⟩ : Suggestion) ∈
        LocatorSuggester.generate_locators node ancestors) ∧
    (∀ (node anchor : NodeAttrs) (ancestors : List NodeAttrs),
      findAnchor ancestors = some anchor → node.text = "" → node.content_desc ≠ "" →
      LocatorSuggester.genScopedLocator node ancestors =
        some ⟨"Scoped (Parent -> Child)",
          "//*[@resource-id='" ++ anchor.resource_id ++ "']" ++
            (".//*[@content-desc=" ++
              LocatorUtils.escape_xpath_string node.content_desc ++ "]"), 20⟩ ∧
      (⟨"Scoped (Parent -> Child)",
        "//*[@resource-id='" ++ anchor.resource_id ++ "']" ++
          (".//*[@content-desc=" ++
            LocatorUtils.escape_xpath_string node.content_desc ++ "]"), 20⟩ : Suggestion) ∈
        LocatorSuggester.generate_locators node ancestors) ∧
    (∀ (node anchor : NodeAttrs) (ancestors : List NodeAttrs),
      findAnchor ancestors = some anchor → node.text = "" → node.content_desc = "" →
      node.resource_id ≠ "" →
      LocatorSuggester.genScopedLocator node ancestors =
        some ⟨"Scoped (Parent -> Child)",
          "//*[@resource-id='" ++ anchor.resource_id ++ "']" ++
            (".//*[@resource-id='" ++ node.resource_id ++ "']"), 20⟩) := by
  refine ⟨?_, ?_, ?_, ?_, ?_, ?_⟩
  · intro s hq
    refine ⟨splitQuote s.data, splitQuote_ne_nil s.data, splitQuote_no_quote s.data, ?_⟩
    unfold LocatorUtils.escape_xpath_string
    rw [if_pos hq]
  · intro node ancestors ht
    unfold LocatorSuggester.generate_locators
    rw [if_pos ht]
    simp
  · intro node ancestors hd
    unfold LocatorSuggester.generate_locators
    rw [if_pos hd]
    simp
  · intro node anchor ancestors hA ht
    have heq : LocatorSuggester.genScopedLocator node ancestors =
        some ⟨"Scoped (Parent -> Child)",
          "//*[@resource-id='" ++ anchor.resource_id ++ "']" ++
            (".//" ++ node.class_name ++ "[@text=" ++
              LocatorUtils.escape_xpath_string node.text ++ "]"), 20⟩ := by
      simp only [LocatorSuggester.genScopedLocator, hA]
      rw [if_pos ht]
    refine ⟨heq, ?_⟩
    unfold LocatorSuggester.generate_locators
    rw [heq]
    simp
  · intro node anchor ancestors hA ht hd
    have heq : LocatorSuggester.genScopedLocator node ancestors =
        some ⟨"Scoped (Parent -> Child)",
          "//*[@resource-id='" ++ anchor.resource_id ++ "']" ++
            (".//*[@content-desc=" ++
              LocatorUtils.escape_xpath_string node.content_desc ++ "]"), 20⟩ := by
      simp only [LocatorSuggester.genScopedLocator, hA]
      rw [if_neg (by simp [ht]), if_pos hd]
    refine ⟨heq, ?_⟩
    unfold LocatorSuggester.generate_locators
    rw [heq]
    simp
  · intro node anchor ancestors hA ht hd hr
    simp only [LocatorSuggester.genScopedLocator, hA]
    rw [if_neg (by simp [ht]), if_neg (by simp [hd]), if_pos hr]

/-- Witness for C7 (amended): the escape clause at the literal `a'b`
(which indeed becomes `concat('a', "'", 'b')`), the unscoped membership
clauses at a node with text `O'K` and description `x'y`, and the scoped
text clause for that node beneath an anchor with id `app:id/panel`. -/
theorem C7_witness :
    (∃ parts : List (List Char), parts ≠ [] ∧ (∀ p ∈ parts, '\'' ∉ p) ∧
      LocatorUtils.escape_xpath_string "a'b" =
        "concat(" ++ String.intercalate ", \"'\", "
          (parts.map (fun p => "'" ++ String.mk p ++ "'")) ++ ")") ∧
    (⟨"Text Match",
      "//" ++ (mkAttrs "O'K" "" "X" "x'y").class_name ++ "[@text=" ++
        LocatorUtils.escape_xpath_string (mkAttrs "O'K" "" "X" "x'y").text ++ "]",
      5⟩ : Suggestion) ∈
      LocatorSuggester.generate_locators (mkAttrs "O'K" "" "X" "x'y") [] ∧
    (⟨"Content-Desc",
      "//*[@content-desc=" ++
        LocatorUtils.escape_xpath_string (mkAttrs "O'K" "" "X" "x'y").content_desc ++ "]",
      8⟩ : Suggestion) ∈
      LocatorSuggester.generate_locators (mkAttrs "O'K" "" "X" "x'y") [] ∧
    (⟨"Scoped (Parent -> Child)",
      "//*[@resource-id='" ++ (mkAttrs "" "app:id/panel" "Y" "").resource_id ++ "']" ++
        (".//" ++ (mkAttrs "O'K" "" "X" "x'y").class_name ++ "[@text=" ++
          LocatorUtils.escape_xpath_string (mkAttrs "O'K" "" "X" "x'y").text ++ "]"),
      20⟩ : Suggestion) ∈
      LocatorSuggester.generate_locators (mkAttrs "O'K" "" "X" "x'y")
        [mkAttrs "" "app:id/panel" "Y" ""] :=
  ⟨C7_text_and_desc_escaped.1 "a'b" (by decide),
   C7_text_and_desc_escaped.2.1 (mkAttrs "O'K" "" "X" "x'y") [] (by decide),
   C7_text_and_desc_escaped.2.2.1 (mkAttrs "O'K" "" "X" "x'y") [] (by decide),
   (C7_text_and_desc_escaped.2.2.2.1 (mkAttrs "O'K" "" "X" "x'y")
     (mkAttrs "" "app:id/panel" "Y" "") [mkAttrs "" "app:id/panel" "Y" ""]
     (by decide) (by decide)).2⟩

/-! ## Command execution (`adb_manager.AdbManager._run_cmd`)

`subprocess.run` and the environment probing of `_resolve_adb` are
external effects; they are modelled by explicit parameters: the
resolved binary (if any), the remote-server redirect configuration, and
a `spawn` function giving, for the final command line and timeout,
either the completed process or the text of the raised exception. -/

/-- `subprocess.CompletedProcess` restricted to the fields the tool
uses. -/
structure CompletedProcess where
  args : List String
  returncode : Int
  stdout : String
  stderr : String
  deriving Repr, DecidableEq

/-- The module-level executor configuration: `_resolve_adb()`'s result
and the `_adb_host` / `_adb_port` redirect. -/
structure AdbEnv where
  resolvedAdb : Option String
  host : Option String
  port : Option Int
  deriving Repr, DecidableEq

/-- Python truthiness of an optional string. -/
def truthyS : Option String → Bool
  | none => false
  | some s => s ≠ ""

/-- Python truthiness of an optional integer. -/
def truthyI : Option Int → Bool
  | none => false
  | some n => n ≠ 0

/-- `AdbManager._apply_adb_server` (adb_manager.py, lines 62–76):
commands not starting with `adb` pass through; otherwise the head is
replaced by the resolved binary (when one was found) and `-H`/`-P`
options are spliced in after it when a redirect is configured. -/
def apply_adb_server (env : AdbEnv) (cmd : List String) : List String :=
  match cmd with
  | [] => cmd
  | c0 :: rest =>
    if c0 ≠ "adb" then cmd
    else
      let head := match env.resolvedAdb with
        | some bin => bin
        | none => c0
      let extra :=
        (if truthyS env.host then ["-H", env.host.getD ""] else []) ++
        (if truthyI env.port then ["-P", toString (env.port.getD 0)] else [])
      if extra.isEmpty then head :: rest
      else head :: (extra ++ rest)

/-- What one `subprocess.run` invocation did: completed (any exit
code), or raised (`FileNotFoundError`, `TimeoutExpired`, …) with
message `str(e)`. -/
inductive SpawnOutcome where
  | completed (returncode : Int) (stdout stderr : String)
  | raised (msg : String)
  deriving Repr, DecidableEq

/-- `AdbManager._run_cmd` (adb_manager.py, lines 117–146): runs the
command produced by `_apply_adb_server`; any exception becomes the
synthetic result `CompletedProcess(cmd, -1, "", str(e))`. -/
def AdbManager.runCmd (env : AdbEnv) (spawn : List String → Nat → SpawnOutcome)
    (cmd : List String) (timeout : Nat) : CompletedProcess :=
  let cmd2 := apply_adb_server env cmd
  match spawn cmd2 timeout with
  | .completed rc out err => ⟨cmd2, rc, out, err⟩
  | .raised msg => ⟨cmd2, -1, "", msg⟩

/-! ## Claim C3 -/

/-- **C3**: `_run_cmd` never raises — for every command, timeout and
spawn behaviour the caller receives a `{stdout, stderr, exit_code}`
value; when the process fails to start or times out (the spawn raises)
the result is synthetic with exit code −1, empty stdout and the
exception text as stderr, and when the process completes its result is
passed through unchanged. -/
theorem C3_run_cmd_never_raises :
    ∀ (env : AdbEnv) (spawn : List String → Nat → SpawnOutcome)
      (cmd : List String) (timeout : Nat),
      (∀ msg, spawn (apply_adb_server env cmd) timeout = .raised msg →
        AdbManager.runCmd env spawn cmd timeout =
          ⟨apply_adb_server env cmd, -1, "", msg⟩) ∧
      (∀ rc out err, spawn (apply_adb_server env cmd) timeout = .completed rc out err →
        AdbManager.runCmd env spawn cmd timeout =
          ⟨apply_adb_server env cmd, rc, out, err⟩) := by
  intro env spawn cmd timeout
  constructor
  · intro msg h
    simp only [AdbManager.runCmd, h]
  · intro rc out err h
    simp only [AdbManager.runCmd, h]

/-- Witness for C3: a timeout on `adb devices` with no redirect
configured yields exit code −1, empty stdout and the exception text. -/
theorem C3_witness :
    AdbManager.runCmd ⟨none, none, none⟩
      (fun _ _ => .raised "Command timed out after 10 seconds") ["adb", "devices"] 10 =
      ⟨["adb", "devices"], -1, "", "Command timed out after 10 seconds"⟩ :=
  (C3_run_cmd_never_raises ⟨none, none, none⟩
    (fun _ _ => .raised "Command timed out after 10 seconds") ["adb", "devices"] 10).1
    "Command timed out after 10 seconds" rfl

/-! ## Hierarchy extraction (`adb_manager.AdbManager.get_xml_dump`)

Each strategy invocation (`try_dump`, `try_direct`, `try_cmd_dump`) is
a bundle of device commands; its observable effect inside
`get_xml_dump` is the hierarchy it returned (if any) and the value it
left in `_last_dump_error` (if it set one).  The error strings a
strategy can set are a fixed family, reproduced below. -/

/-- The `_last_dump_error` values the strategy closures can set
(adb_manager.py, lines 517–523, 548–554, 570–576). -/
inductive DumpErrKind where
  | killedExit137
  | failed (code : Int)
  | killedOutput
  | cmdKilledExit137
  | cmdFailed (code : Int)
  | cmdKilledOutput
  deriving Repr, DecidableEq

def dumpErrMsg : DumpErrKind → String
  | .killedExit137 => "uiautomator dump was killed by device (exit 137)"
  | .failed code => "uiautomator dump failed (code " ++ toString code ++ ")"
  | .killedOutput => "uiautomator dump was killed by device"
  | .cmdKilledExit137 => "cmd uiautomator dump was killed by device (exit 137)"
  | .cmdFailed code => "cmd uiautomator dump failed (code " ++ toString code ++ ")"
  | .cmdKilledOutput => "cmd uiautomator dump was killed by device"

/-- Observable outcome of one strategy invocation. -/
structure AttemptOut where
  xml : Option String
  errSet : Option DumpErrKind

/-- Which strategy an attempt runs. -/
inductive StrategyKind where
  | file
  | direct
  | cmd
  deriving Repr, DecidableEq

structure AttemptSpec where
  display : Option String
  compressed : Bool
  strategy : StrategyKind
  deriving Repr, DecidableEq

/-- The display candidates (adb_manager.py, lines 479–486): the
truthy preferred id first, then "no display", then every other truthy
discovered id. -/
def displayCandidates (preferred : Option String) (discovered : List String) :
    List (Option String) :=
  (match preferred with
   | some p => if p = "" then [] else [some p]
   | none => []) ++
  [none] ++
  (discovered.filter (fun d => d ≠ "" ∧ some d ≠ preferred)).map some

/-- The attempt order (adb_manager.py, lines 594–604): per candidate,
compressed before uncompressed; per combination, the file strategy
twice (one retry), then the direct pipe, then the `cmd` surface. -/
def attemptSchedule (candidates : List (Option String)) : List AttemptSpec :=
  candidates.flatMap (fun d =>
    [true, false].flatMap (fun comp =>
      [⟨d, comp, .file⟩, ⟨d, comp, .file⟩, ⟨d, comp, .direct⟩, ⟨d, comp, .cmd⟩]))

/-- The world one `get_xml_dump` call runs against: the cached service
availability consulted at entry, the readable prior dump file (the
result of the initial `read_existing()`), and the outcome of the k-th
strategy invocation. -/
structure DumpWorld where
  serviceAvailable : Bool
  existing : Option String
  outcomes : Nat → AttemptOut

def serviceMissingMsg : String := "uiautomator service not listed; attempting dump anyway"

def noHierarchyMsg : String := "uiautomator returned no hierarchy"

def staleMsg : String := "using existing /sdcard/window_dump.xml (may be stale)"

/-- The post-loop logic (adb_manager.py, lines 605–610): default the
error if nothing set it, then fall back to the pre-read existing file
(overwriting the error with the staleness note), else fail. -/
def finishDump (w : DumpWorld) (err : Option String) : Option String × Option String :=
  let err2 := match err with
    | none => some noHierarchyMsg
    | some e => some e
  match w.existing with
  | some xml => (some xml, some staleMsg)
  | none => (none, err2)

/-- The strategy loop: each attempt merges its error effect into
`_last_dump_error` and a returned hierarchy exits the whole function at
once. -/
def runAttempts (w : DumpWorld) :
    List AttemptSpec → Nat → Option String → Option String × Option String
  | [], _, err => finishDump w err
  | _ :: rest, k, err =>
    let o := w.outcomes k
    let err2 := (o.errSet.map dumpErrMsg).orElse (fun _ => err)
    match o.xml with
    | some xml => (some xml, err2)
    | none => runAttempts w rest (k + 1) err2

/-- `AdbManager.get_xml_dump` (adb_manager.py, lines 458–610), as the
pair (returned hierarchy, final `_last_dump_error`).  `_last_dump_error`
starts at `None`; an unavailable service only records a note and the
strategies run anyway. -/
def AdbManager.get_xml_dump (w : DumpWorld) (preferred : Option String)
    (discovered : List String) : Option String × Option String :=
  let err0 : Option String := if w.serviceAvailable then none else some serviceMissingMsg
  runAttempts w (attemptSchedule (displayCandidates preferred discovered)) 0 err0

/-- `AdbManager.has_uiautomator_service` (adb_manager.py, lines
639–648) over an explicit cache (the module-level
`_uiautomator_service_cache`, keyed by the normalized serial, which the
caller passes already stripped).  `queryOut` is the combined
stdout+stderr `service list` would produce; the third component of the
result records whether that command was actually run. -/
def AdbManager.has_uiautomator_service (cache : List (String × Bool)) (serial : String)
    (queryOut : String) : Bool × List (String × Bool) × Bool :=
  match cache.lookup serial with
  | some v => (v, cache, false)
  | none =>
    let available := strContains "uiautomator" queryOut.toLower
    (available, (serial, available) :: cache, true)

lemma string_append_ne_empty (s t : String) (hs : s ≠ "") : s ++ t ≠ "" := by
  intro h
  apply hs
  have hd := congrArg String.data h
  rw [String.data_append] at hd
  have h1 := (List.append_eq_nil.mp hd).1
  cases s
  simp_all

lemma dumpErrMsg_ne_empty (d : DumpErrKind) : dumpErrMsg d ≠ "" := by
  cases d with
  | failed code =>
    exact string_append_ne_empty _ _ (string_append_ne_empty _ _ (by decide))
  | cmdFailed code =>
    exact string_append_ne_empty _ _ (string_append_ne_empty _ _ (by decide))
  | killedExit137 => decide
  | killedOutput => decide
  | cmdKilledExit137 => decide
  | cmdKilledOutput => decide

/-- Errors the loop threads are never the empty string. -/
def errOk (err : Option String) : Prop := ∀ e, err = some e → e ≠ ""

lemma errOk_merge (err : Option String) (o : Option DumpErrKind) (h : errOk err) :
    errOk ((o.map dumpErrMsg).orElse (fun _ => err)) := by
  cases o with
  | none => simpa [Option.orElse] using h
  | some d =>
    intro e he
    simp only [Option.map_some', Option.orElse] at he
    injection he with he'
    subst he'
    exact dumpErrMsg_ne_empty d

lemma runAttempts_all_fail (w : DumpWorld) :
    ∀ (specs : List AttemptSpec) (k : Nat) (err : Option String),
      (∀ i, i < specs.length → (w.outcomes (k + i)).xml = none) →
      errOk err →
      ∃ err2, runAttempts w specs k err = finishDump w err2 ∧ errOk err2 := by
  intro specs
  induction specs with
  | nil =>
    intro k err hfail hok
    exact ⟨err, rfl, hok⟩
  | cons spec rest ih =>
    intro k err hfail hok
    have h0 : (w.outcomes k).xml = none := by
      have := hfail 0 (by simp)
      simpa using this
    have hrest : ∀ i, i < rest.length → (w.outcomes (k + 1 + i)).xml = none := by
      intro i hi
      have := hfail (i + 1) (by simp; omega)
      rw [show k + (i + 1) = k + 1 + i by omega] at this
      exact this
    obtain ⟨err2, heq, hok2⟩ :=
      ih (k + 1) ((((w.outcomes k).errSet).map dumpErrMsg).orElse (fun _ => err))
        hrest (errOk_merge err _ hok)
    refine ⟨err2, ?_, hok2⟩
    simp only [runAttempts, h0]
    exact heq

/-! ## Claim C5 -/

/-- **C5**: when every strategy attempt in the whole schedule
(display-candidate × compressed-flag × strategy, retries included)
returns no hierarchy, `get_xml_dump` falls back to the dump file that
already existed on-device before the attempts, flagging it as possibly
stale through the last-error string; and when no such readable file
exists it returns `None` together with a non-empty last-error reason. -/
theorem C5_all_fail_fallback :
    ∀ (w : DumpWorld) (preferred : Option String) (discovered : List String),
      (∀ k, k < (attemptSchedule (displayCandidates preferred discovered)).length →
        (w.outcomes k).xml = none) →
      (∀ x, w.existing = some x →
        AdbManager.get_xml_dump w preferred discovered = (some x, some staleMsg)) ∧
      (w.existing = none →
        (AdbManager.get_xml_dump w preferred discovered).1 = none ∧
        ∃ e, (AdbManager.get_xml_dump w preferred discovered).2 = some e ∧ e ≠ "") := by
  intro w preferred discovered hfail
  have hok0 : errOk (if w.serviceAvailable then none else some serviceMissingMsg) := by
    intro e he
    by_cases hs : w.serviceAvailable
    · rw [if_pos hs] at he
      exact absurd he (by simp)
    · rw [if_neg hs] at he
      injection he with he2
      subst he2
      decide
  obtain ⟨err2, heq, hok2⟩ := runAttempts_all_fail w
    (attemptSchedule (displayCandidates preferred discovered)) 0
    (if w.serviceAvailable then none else some serviceMissingMsg)
    (by simpa using hfail) hok0
  constructor
  · intro x hx
    simp only [AdbManager.get_xml_dump]
    rw [heq]
    simp only [finishDump, hx]
  · intro hx
    simp only [AdbManager.get_xml_dump]
    rw [heq]
    simp only [finishDump, hx]
    refine ⟨by trivial, ?_⟩
    cases herr2 : err2 with
    | none => exact ⟨noHierarchyMsg, rfl, by decide⟩
    | some e => exact ⟨e, rfl, hok2 e herr2⟩

/-- Witness for C5: with every attempt failing, a pre-existing on-device
file is returned with the staleness note, and with no such file the
call fails with a non-empty reason. -/
theorem C5_witness :
    AdbManager.get_xml_dump ⟨true, some "<hierarchy></hierarchy>", fun _ => ⟨none, none⟩⟩
        none [] = (some "<hierarchy></hierarchy>", some staleMsg) ∧
    ((AdbManager.get_xml_dump ⟨true, none, fun _ => ⟨none, none⟩⟩ none []).1 = none ∧
      ∃ e, (AdbManager.get_xml_dump ⟨true, none, fun _ => ⟨none, none⟩⟩ none []).2 = some e ∧
        e ≠ "") :=
  ⟨(C5_all_fail_fallback ⟨true, some "<hierarchy></hierarchy>", fun _ => ⟨none, none⟩⟩
      none [] (fun _ _ => rfl)).1 "<hierarchy></hierarchy>" rfl,
   (C5_all_fail_fallback ⟨true, none, fun _ => ⟨none, none⟩⟩
      none [] (fun _ _ => rfl)).2 rfl⟩

/-! ## Claim C8 (corrected) -/

/-- A world whose device lacks the dump service but whose very first
strategy attempt succeeds. -/
def c8World : DumpWorld :=
  ⟨false, none, fun _ => ⟨some "<hierarchy><node/></hierarchy>", none⟩⟩

/-- **C8, counterexample**: with the dump service *not* registered,
`get_xml_dump` does not short-circuit into a failure — it runs the
strategies anyway (recording only the informative note
"uiautomator service not listed; attempting dump anyway") and here
returns a successful dump from the first attempt. -/
theorem C8_counterexample :
    AdbManager.get_xml_dump c8World none [] =
      (some "<hierarchy><node/></hierarchy>", some serviceMissingMsg) := rfl

lemma displayCandidates_ne_nil (preferred : Option String) (discovered : List String) :
    displayCandidates preferred discovered ≠ [] := by
  unfold displayCandidates
  intro h
  simp [List.append_eq_nil] at h

lemma attemptSchedule_cons (preferred : Option String) (discovered : List String) :
    ∃ spec rest, attemptSchedule (displayCandidates preferred discovered) = spec :: rest := by
  obtain ⟨c, cs, hc⟩ :=
    List.exists_cons_of_ne_nil (displayCandidates_ne_nil preferred discovered)
  exact ⟨⟨c, true, .file⟩, _, by rw [hc]; rfl⟩

/-- **C8 (amended)**: the service-registration check is cached per
serial — a cached entry is returned without re-running `service list`,
and a second call for the same serial never queries again and returns
the same answer; but when the service is not registered `get_xml_dump`
does *not* short-circuit: it records the informative
"attempting dump anyway" note in the last-error slot and runs the dump
strategies for the cycle regardless (so a succeeding strategy still
returns its hierarchy). -/
theorem C8_cached_check_but_no_short_circuit :
    (∀ (cache : List (String × Bool)) (serial queryOut : String) (v : Bool),
      cache.lookup serial = some v →
      AdbManager.has_uiautomator_service cache serial queryOut = (v, cache, false)) ∧
    (∀ (cache : List (String × Bool)) (serial queryOut queryOut2 : String),
      (AdbManager.has_uiautomator_service
        (AdbManager.has_uiautomator_service cache serial queryOut).2.1 serial queryOut2).2.2 =
          false ∧
      (AdbManager.has_uiautomator_service
        (AdbManager.has_uiautomator_service cache serial queryOut).2.1 serial queryOut2).1 =
        (AdbManager.has_uiautomator_service cache serial queryOut).1) ∧
    (∀ (w : DumpWorld) (preferred : Option String) (discovered : List String) (x : String),
      w.serviceAvailable = false →
      (w.outcomes 0).xml = some x →
      ∃ e, AdbManager.get_xml_dump w preferred discovered = (some x, some e)) := by
  refine ⟨?_, ?_, ?_⟩
  · intro cache serial queryOut v h
    simp only [AdbManager.has_uiautomator_service, h]
  · intro cache serial queryOut queryOut2
    cases hl : cache.lookup serial with
    | some v =>
      simp only [AdbManager.has_uiautomator_service, hl]
      constructor <;> trivial
    | none =>
      simp only [AdbManager.has_uiautomator_service, hl]
      have hself : ((serial, strContains "uiautomator" queryOut.toLower) :: cache).lookup
          serial = some (strContains "uiautomator" queryOut.toLower) := by
        simp [List.lookup]
      simp only [hself]
      constructor <;> trivial
  · intro w preferred discovered x hs hx
    obtain ⟨spec, rest, hsched⟩ := attemptSchedule_cons preferred discovered
    simp only [AdbManager.get_xml_dump, hsched, hs, if_false]
    simp only [runAttempts, hx]
    cases he : (w.outcomes 0).errSet with
    | none => exact ⟨serviceMissingMsg, by simp [he, Option.orElse]⟩
    | some d => exact ⟨dumpErrMsg d, by simp [he, Option.orElse]⟩

/-- Witness for C8 (amended): a cache hit answers without querying, and
in `c8World` (service absent, first attempt succeeding) the call
returns the dump with an informative note. -/
theorem C8_witness :
    AdbManager.has_uiautomator_service [("emulator-5554", true)] "emulator-5554" "" =
      (true, [("emulator-5554", true)], false) ∧
    ∃ e, AdbManager.get_xml_dump c8World none [] =
      (some "<hierarchy><node/></hierarchy>", some e) :=
  ⟨C8_cached_check_but_no_short_circuit.1 [("emulator-5554", true)] "emulator-5554" "" true rfl,
   C8_cached_check_but_no_short_circuit.2.2 c8World none []
     "<hierarchy><node/></hierarchy>" rfl rfl⟩

/-! ## The hierarchy polling loop (`live_mirror.HierarchyThread.run`)

One iteration of the `while self.running` body (live_mirror.py, lines
534–555), with the dump call, the error lookup and the clock passed in
as the cycle's input and the mutable fields (`last_hash`,
`_last_error_ts`) as explicit state.  The content hash (`hashlib.md5`
hexdigest) is an arbitrary function parameter — the gating only relies
on equal content hashing equally. -/

structure HState where
  lastHash : String
  lastErrTs : ℚ

structure CycleIn where
  dump : Option String
  lastErr : Option String
  now : ℚ

inductive HEvent where
  | treeReady (xml : String) (changed : Bool)
  | dumpError (msg : String)
  deriving Repr, DecidableEq

/-- One loop iteration: a dump longer than 50 characters is hashed and
emitted only when the hash changed; otherwise the throttled error path
runs. -/
def hierarchyStep (hash : String → String) (st : HState) (inp : CycleIn) :
    List HEvent × HState :=
  let errBranch : List HEvent × HState :=
    match inp.lastErr with
    | some e =>
      if e ≠ "" ∧ inp.now - st.lastErrTs > 5 then
        ([.dumpError ("UI dump failed: " ++ e)], { st with lastErrTs := inp.now })
      else ([], st)
    | none => ([], st)
  match inp.dump with
  | some xml =>
    if 50 < xml.length then
      if hash xml ≠ st.lastHash then
        ([.treeReady xml true], { st with lastHash := hash xml })
      else ([], st)
    else errBranch
  | none => errBranch

/-- The loop run over a list of cycle inputs, collecting emissions. -/
def hierarchyRun (hash : String → String) (st : HState) :
    List CycleIn → List HEvent × HState
  | [] => ([], st)
  | i :: is =>
    let r1 := hierarchyStep hash st i
    let r2 := hierarchyRun hash r1.2 is
    (r1.1 ++ r2.1, r2.2)

lemma hierarchyRun_steady (hash : String → String) (X : String)
    (hlen : 50 < X.length) :
    ∀ (inps : List CycleIn) (st : HState), st.lastHash = hash X →
      (∀ i ∈ inps, i.dump = some X) →
      hierarchyRun hash st inps = ([], st) := by
  intro inps
  induction inps with
  | nil => intro st _ _; rfl
  | cons i is ih =>
    intro st hst hall
    have hi : i.dump = some X := hall i (List.mem_cons_self i is)
    have hstep : hierarchyStep hash st i = ([], st) := by
      simp only [hierarchyStep, hi]
      rw [if_pos hlen, if_neg (by simp [hst])]
    have hrest : hierarchyRun hash st is = ([], st) :=
      ih st hst (fun j hj => hall j (List.mem_cons_of_mem i hj))
    simp only [hierarchyRun, hstep, hrest]
    rfl

/-! ## Claim C9 -/

/-- **C9**: the hierarchy loop emits a tree only when the content hash
of the new dump differs from the last emitted hash — a cycle whose dump
hashes like the stored hash emits nothing and leaves the state
unchanged — and over any run of consecutive cycles all obtaining the
same (long-enough) dump content, with that content fresh at the start,
exactly one `tree-ready(changed=true)` emission occurs, and no further
tree emission occurs while the content stays the same. -/
theorem C9_emission_gated_by_hash :
    (∀ (hash : String → String) (st : HState) (i : CycleIn) (xml : String),
      i.dump = some xml → 50 < xml.length → hash xml = st.lastHash →
      hierarchyStep hash st i = ([], st)) ∧
    (∀ (hash : String → String) (st : HState) (X : String) (inps : List CycleIn),
      50 < X.length → hash X ≠ st.lastHash → inps ≠ [] →
      (∀ i ∈ inps, i.dump = some X) →
      (hierarchyRun hash st inps).1 = [HEvent.treeReady X true]) := by
  constructor
  · intro hash st i xml hi hlen hh
    simp only [hierarchyStep, hi]
    rw [if_pos hlen, if_neg (by simp [hh])]
  · intro hash st X inps hlen hfresh hne hall
    cases inps with
    | nil => exact absurd rfl hne
    | cons i is =>
      have hi : i.dump = some X := hall i (List.mem_cons_self i is)
      have hstep : hierarchyStep hash st i =
          ([HEvent.treeReady X true], { st with lastHash := hash X }) := by
        simp only [hierarchyStep, hi]
        rw [if_pos hlen, if_pos hfresh]
      have hrest : hierarchyRun hash { st with lastHash := hash X } is =
          ([], { st with lastHash := hash X }) :=
        hierarchyRun_steady hash X hlen is _ rfl
          (fun j hj => hall j (List.mem_cons_of_mem i hj))
      simp only [hierarchyRun, hstep, hrest]
      rfl

/-- Witness for C9: two consecutive cycles both returning the same
52-character dump, starting from the initial state (`last_hash = ""`),
with the identity as the content hash: exactly one
`tree-ready(changed=true)` emission. -/
theorem C9_witness :
    (hierarchyRun (fun s => s) ⟨"", 0⟩
      [⟨some "0123456789012345678901234567890123456789012345678901", none, 0⟩,
       ⟨some "0123456789012345678901234567890123456789012345678901", none, 2⟩]).1 =
      [HEvent.treeReady "0123456789012345678901234567890123456789012345678901" true] :=
  C9_emission_gated_by_hash.2 (fun s => s) ⟨"", 0⟩
    "0123456789012345678901234567890123456789012345678901"
    [⟨some "0123456789012345678901234567890123456789012345678901", none, 0⟩,
     ⟨some "0123456789012345678901234567890123456789012345678901", none, 2⟩]
    (by decide) (by decide) (by simp)
    (by intro i hi
        rcases List.mem_cons.mp hi with h | h
        · subst h; rfl
        · rcases List.mem_cons.mp h with h2 | h2
          · subst h2; rfl
          · simp at h2)

end QaSnapshot